import Mathlib

/-!
Verification of the domain layer of the `my_social_feed` application
(`src/app.py`).  Tables loaded from the CSV store are modelled as Lean
lists of row structures with string-typed fields (pandas loads every
column with `dtype=str` and `fillna("")`), and each domain operation is
translated into a pure function over those lists.  Nondeterministic
inputs of the Python code (`uuid.uuid4().hex`, `now_iso()`) are passed
in as explicit parameters.
-/

namespace SocialFeed

/-- Python strings are modelled as lists of characters. -/
abbrev Str := List Char

/-- The whitespace characters stripped by Python's `str.strip()`
(ASCII fragment). -/
def wsChar (c : Char) : Bool :=
  c = ' ' || c = '\t' || c = '\n' || c = '\r' || c = '\x0b' || c = '\x0c'

/-- `str.strip()`: drop whitespace from both ends. -/
def trimS (s : Str) : Str :=
  ((s.dropWhile wsChar).reverse.dropWhile wsChar).reverse

/-- `str.lower()` (ASCII fragment, matching `Char.toLower`). -/
def lowerStr (s : Str) : Str :=
  s.map Char.toLower

/-- A character matched by the regex class `\w` (ASCII fragment). -/
def isWordChar (c : Char) : Bool :=
  c.isAlphanum || c = '_'

/-- Truthiness of an optional string argument in Python:
`None` and `""` are falsy. -/
def truthyOpt : Option Str → Bool
  | none => false
  | some s => !s.isEmpty

/-- Python `x or ""` on an optional string. -/
def optOrEmpty : Option Str → Str
  | none => []
  | some s => s

/-- `needle` occurs at the head of `hay`. -/
def isLead : Str → Str → Bool
  | [], _ => true
  | _ :: _, [] => false
  | a :: as, b :: bs => a = b && isLead as bs

/-- Python's `needle in hay` substring test. -/
def strContains : Str → Str → Bool
  | [], needle => needle.isEmpty
  | h :: t, needle => isLead needle (h :: t) || strContains t needle

/-- Scanner for `re.findall(r"#(\w+)", text)` followed by lowercasing of
each captured group: the state is the word collected so far (in reverse)
after a `#`, or `none` outside a candidate match. -/
def scanTags : Option Str → Str → List Str
  | none, [] => []
  | some w, [] => if w.isEmpty then [] else [lowerStr w.reverse]
  | none, c :: rest =>
      if c = '#' then scanTags (some []) rest else scanTags none rest
  | some w, c :: rest =>
      if isWordChar c then scanTags (some (c :: w)) rest
      else
        (if w.isEmpty then [] else [lowerStr w.reverse])
          ++ (if c = '#' then scanTags (some []) rest else scanTags none rest)

/-- `extract_hashtags` (src/app.py:361-364): all `#word` tokens of the
text, lowercased. -/
def extract_hashtags (text : Str) : List Str :=
  if text.isEmpty then [] else scanTags none text

/-- Row of `users.csv` (USERS_COLUMNS, src/app.py:26-29). -/
structure UserRow where
  user_id : Str
  user_password : Str
  username : Str
  username_lc : Str
  created_at : Str
  bio : Str
  avatar_url : Str
  is_admin : Str
deriving DecidableEq, Repr

/-- Row of `posts.csv` (POSTS_COLUMNS, src/app.py:30). -/
structure PostRow where
  post_id : Str
  author_id : Str
  content : Str
  created_at : Str
  is_retweet : Str
  retweet_of_post_id : Str
deriving DecidableEq, Repr

/-- Row of `likes.csv` (LIKES_COLUMNS, src/app.py:31). -/
structure LikeRow where
  post_id : Str
  user_id : Str
  created_at : Str
deriving DecidableEq, Repr

/-- Row of `comments.csv` (COMMENTS_COLUMNS, src/app.py:32). -/
structure CommentRow where
  comment_id : Str
  post_id : Str
  author_id : Str
  content : Str
  created_at : Str
  parent_comment_id : Str
deriving DecidableEq, Repr

/-- Row of `follows.csv` (FOLLOWS_COLUMNS, src/app.py:33). -/
structure FollowRow where
  follower_id : Str
  followee_id : Str
  created_at : Str
deriving DecidableEq, Repr

/-- Row of `reports.csv` (REPORTS_COLUMNS, src/app.py:34). -/
structure ReportRow where
  report_id : Str
  target_type : Str
  target_id : Str
  reporter_id : Str
  reason : Str
  created_at : Str
  resolved : Str
deriving DecidableEq, Repr

/-- The six persisted tables of the application. -/
structure State where
  users : List UserRow
  posts : List PostRow
  likes : List LikeRow
  comments : List CommentRow
  follows : List FollowRow
  reports : List ReportRow
deriving DecidableEq, Repr

/-- `username_exists` (src/app.py:147-149): a user row with the given
lowercased username is present. -/
def username_exists (users : List UserRow) (username : Str) : Bool :=
  !(users.filter (fun u => decide (u.username_lc = lowerStr username))).isEmpty

/-- `create_user` (src/app.py:151-171).  Returns the `(ok, message)` pair
and the users table after the call; `nid` stands for `uuid.uuid4().hex`
and `now` for `now_iso()`. -/
def create_user (users : List UserRow) (username password : Str)
    (nid now : Str) : (Bool × Str) × List UserRow :=
  if (trimS username).isEmpty then
    ((false, "사용자명을 입력해주세요.".toList), users)
  else if (trimS password).isEmpty then
    ((false, "비밀번호를 입력해주세요.".toList), users)
  else if username_exists users username then
    ((false, "이미 존재하는 사용자명입니다.".toList), users)
  else
    ((true, "회원가입이 완료되었습니다. 로그인해주세요.".toList),
      users ++ [{ user_id := nid, user_password := password,
                  username := username, username_lc := lowerStr username,
                  created_at := now, bio := [], avatar_url := [],
                  is_admin := "False".toList }])

/-- `verify_login` (src/app.py:173-179): first row matching the
case-insensitive username and the exact password, if any. -/
def verify_login (users : List UserRow) (username password : Str) :
    Option UserRow :=
  (users.filter (fun u =>
    decide (u.username_lc = lowerStr username ∧ u.user_password = password))).head?

/-- `add_post` (src/app.py:181-197).  Returns the `(ok, message)` pair
and the posts table after the call. -/
def add_post (posts : List PostRow) (author_id content0 : Str)
    (retweet_of : Option Str) (nid now : Str) : (Bool × Str) × List PostRow :=
  let content := trimS content0
  if content.isEmpty && !truthyOpt retweet_of then
    ((false, "내용을 입력해주세요.".toList), posts)
  else if 280 < content.length then
    ((false, "내용은 최대 280자까지 가능합니다.".toList), posts)
  else
    ((true, "게시글이 등록되었습니다.".toList),
      posts ++ [{ post_id := nid, author_id := author_id, content := content,
                  created_at := now,
                  is_retweet := if truthyOpt retweet_of then "True".toList
                                else "False".toList,
                  retweet_of_post_id := optOrEmpty retweet_of }])

/-- The row mask of `toggle_like` (src/app.py:205): the like row belongs
to the given (post, user) pair. -/
def likeMatches (post_id user_id : Str) (r : LikeRow) : Bool :=
  decide (r.post_id = post_id ∧ r.user_id = user_id)

/-- `toggle_like` (src/app.py:203-212): remove every like row of the
(post, user) pair when one is present (`likes[~mask]`), otherwise append
a fresh row. -/
def toggle_like (likes : List LikeRow) (post_id user_id now : Str) :
    List LikeRow :=
  if likes.any (likeMatches post_id user_id) then
    likes.filter (fun r => !likeMatches post_id user_id r)
  else
    likes ++ [{ post_id := post_id, user_id := user_id, created_at := now }]

/-- `already_retweeted` (src/app.py:214-223). -/
def already_retweeted (posts : List PostRow) (target_post_id user_id : Str) :
    Bool :=
  match posts with
  | [] => false
  | _ =>
    decide (0 < (posts.filter (fun r =>
      decide (r.author_id = user_id ∧ r.is_retweet = "True".toList ∧
        r.retweet_of_post_id = target_post_id))).length)

/-- `add_comment` (src/app.py:228-244). -/
def add_comment (comments : List CommentRow) (post_id author_id content0 : Str)
    (parent : Str) (nid now : Str) : (Bool × Str) × List CommentRow :=
  let content := trimS content0
  if content.isEmpty then
    ((false, "댓글 내용을 입력해주세요.".toList), comments)
  else if 280 < content.length then
    ((false, "댓글은 최대 280자까지 가능합니다.".toList), comments)
  else
    ((true, "댓글이 등록되었습니다.".toList),
      comments ++ [{ comment_id := nid, post_id := post_id,
                     author_id := author_id, content := content,
                     created_at := now, parent_comment_id := parent }])

/-- `add_report` (src/app.py:300-318). -/
def add_report (reports : List ReportRow) (target_type target_id reporter_id : Str)
    (reason0 : Str) (nid now : Str) : (Bool × Str) × List ReportRow :=
  let tt := lowerStr target_type
  if tt = "post".toList ∨ tt = "comment".toList then
    let reason := trimS reason0
    if reason.isEmpty then
      ((false, "신고 사유를 입력해주세요.".toList), reports)
    else
      ((true, "신고가 접수되었습니다.".toList),
        reports ++ [{ report_id := nid, target_type := tt,
                      target_id := target_id, reporter_id := reporter_id,
                      reason := reason, created_at := now,
                      resolved := "False".toList }])
  else
    ((false, "잘못된 대상 유형입니다.".toList), reports)

/-- `like_count` (src/app.py:452-454). -/
def like_count (likes : List LikeRow) (post_id : Str) : Nat :=
  (likes.filter (fun r => decide (r.post_id = post_id))).length

/-- `delete_post` (src/app.py:334-348): drop the post and cascade to its
likes and comments; the other three tables are untouched. -/
def delete_post (s : State) (post_id : Str) : State :=
  { s with
    posts := s.posts.filter (fun r => decide (r.post_id ≠ post_id)),
    likes := s.likes.filter (fun r => decide (r.post_id ≠ post_id)),
    comments := s.comments.filter (fun r => decide (r.post_id ≠ post_id)) }

/-- `delete_comment` (src/app.py:350-356). -/
def delete_comment (comments : List CommentRow) (comment_id : Str) :
    List CommentRow :=
  comments.filter (fun r => decide (r.comment_id ≠ comment_id))

/-- An element of a Python regular expression, for the fragment of `re`
modelled here: a literal character, or the `.` metacharacter (any
character except a newline). -/
inductive RElem where
  | lit (c : Char)
  | dot
deriving DecidableEq, Repr

/-- The special (meta) characters of Python regular expressions
(the set `re.escape` quotes). -/
def reMeta (c : Char) : Bool :=
  c = '.' || c = '^' || c = '$' || c = '*' || c = '+' || c = '?' ||
  c = '\x7b' || c = '\x7d' || c = '[' || c = ']' || c = '\\' || c = '|' ||
  c = '(' || c = ')'

/-- Read a pattern string as a Python regular expression within the
modelled fragment: every non-special character is a literal and `.` is
the any-character metacharacter.  A pattern using any other special
character (repetition, classes, anchors, escapes, groups, alternation)
is outside the fragment and yields `none`. -/
def parsePattern : Str → Option (List RElem)
  | [] => some []
  | c :: rest =>
    if c = '.' then (parsePattern rest).map (fun p => RElem.dot :: p)
    else if reMeta c then none
    else (parsePattern rest).map (fun p => RElem.lit c :: p)

/-- The pattern matches at the head of the string: each element consumes
exactly one character, and `.` refuses a newline, as in Python. -/
def reMatchAt : List RElem → Str → Bool
  | [], _ => true
  | _ :: _, [] => false
  | RElem.lit c :: p, x :: xs => c = x && reMatchAt p xs
  | RElem.dot :: p, x :: xs => x ≠ '\n' && reMatchAt p xs

/-- `re.search` within the fragment: the pattern matches at some start
position of the string. -/
def reSearch (p : List RElem) : Str → Bool
  | [] => reMatchAt p []
  | x :: xs => reMatchAt p (x :: xs) || reSearch p xs

/-- The plain-text branch of the search (src/app.py:392-393):
`content.str.lower().str.contains(ql, na=False)` with the pandas default
`regex=True`, i.e. `re.search` of the lowercased query in the lowercased
content.  For a query outside the modelled regex fragment the behaviour
of the code (full regex engine, or `re.error` for malformed patterns) is
not modelled and the table is returned unfiltered; no theorem below
relies on that arm. -/
def textSearch (df_posts : List PostRow) (q : Str) : List PostRow :=
  match parsePattern (lowerStr q) with
  | some pat => df_posts.filter (fun p => reSearch pat (lowerStr p.content))
  | none => df_posts

/-- `filter_posts_by_query` (src/app.py:366-393).  The users table is an
explicit parameter (the Python code reads it through `load_users()`). -/
def filter_posts_by_query (users : List UserRow) (df_posts : List PostRow)
    (query : Option Str) : List PostRow :=
  match query with
  | none => df_posts
  | some q0 =>
    if q0.isEmpty then df_posts
    else
      match trimS q0 with
      | [] => textSearch df_posts []
      | c :: rest =>
        if c = '@' then
          let author_ids :=
            (users.filter (fun u => decide (u.username_lc = lowerStr rest))).map
              (fun u => u.user_id)
          df_posts.filter (fun p => decide (p.author_id ∈ author_ids))
        else if c = '#' then
          df_posts.filter (fun p =>
            decide (lowerStr rest ∈ extract_hashtags p.content))
        else
          textSearch df_posts (c :: rest)

/-- First occurrence of each string, in order of first appearance. -/
def firstOccs : List Str → List Str
  | [] => []
  | t :: rest => t :: (firstOccs rest).filter (fun s => decide (s ≠ t))

/-- Number of occurrences of `a` in `l`. -/
def countS (a : Str) (l : List Str) : Nat :=
  (l.filter (fun s => decide (s = a))).length

/-- Modelled from the documented semantics of `collections.Counter`:
keys in first-insertion order, each paired with its multiplicity. -/
def counterList (ts : List Str) : List (Str × Nat) :=
  (firstOccs ts).map (fun t => (t, countS t ts))

/-- Insert `x` into a count-descending list, after every entry whose
count is at least `x`'s (the placement a stable descending sort makes). -/
def insDesc (x : Str × Nat) : List (Str × Nat) → List (Str × Nat)
  | [] => [x]
  | y :: ys => if x.2 ≤ y.2 then y :: insDesc x ys else x :: y :: ys

/-- Stable insertion sort by count, descending — the order produced by
`Counter.most_common` (sorted by count, ties kept in insertion order). -/
def sortDesc (l : List (Str × Nat)) : List (Str × Nat) :=
  l.foldl (fun acc x => insDesc x acc) []

/-- `Counter(tags).most_common(topk)`. -/
def mostCommon (ts : List Str) (topk : Nat) : List (Str × Nat) :=
  (sortDesc (counterList ts)).take topk

/-- The hashtag stream of `trending_hashtags` (src/app.py:395-400):
tags of every post's content, in row order. -/
def allTags (df_posts : List PostRow) : List Str :=
  (df_posts.map (fun p => extract_hashtags p.content)).flatten

/-- `trending_hashtags` (src/app.py:395-400). -/
def trending_hashtags (df_posts : List PostRow) (topk : Nat) :
    List (Str × Nat) :=
  mostCommon (allTags df_posts) topk

/-- Index of the first occurrence of `a` in `l` (length of `l` when
absent). -/
def idxOfS (a : Str) : List Str → Nat
  | [] => 0
  | b :: r => if b = a then 0 else idxOfS a r + 1

/-- A posts table holding one retweet of post `p1` by user `u1`. -/
def c1posts : List PostRow :=
  [{ post_id := "r1".toList, author_id := "u1".toList, content := [],
     created_at := "t0".toList, is_retweet := "True".toList,
     retweet_of_post_id := "p1".toList }]

/-- The state obtained from empty tables by creating post `p1`, liking
it, and commenting on it. -/
def c2state : State :=
  { users := [],
    posts := (add_post [] "u1".toList "hello".toList none "p1".toList
      "t1".toList).2,
    likes := toggle_like [] "p1".toList "u2".toList "t2".toList,
    comments := (add_comment [] "p1".toList "u2".toList "nice".toList []
      "c1".toList "t3".toList).2,
    follows := [], reports := [] }

/-- A likes table holding two rows for the same (post, user) pair —
a table that violates the documented at-most-one-like-per-pair
invariant. -/
def c4likes : List LikeRow :=
  [{ post_id := "p1".toList, user_id := "u1".toList, created_at := "ta".toList },
   { post_id := "p1".toList, user_id := "u1".toList, created_at := "tb".toList }]

/-- A post whose content `abc` matches the regular expression `a.c`
but does not contain `a.c` as a substring. -/
def c7post : PostRow :=
  { post_id := "p3".toList, author_id := "ub".toList,
    content := "abc".toList, created_at := [],
    is_retweet := "False".toList, retweet_of_post_id := [] }

/-- Two posts whose hashtag stream is `#a, #a, #b`. -/
def c8posts : List PostRow :=
  [{ post_id := "1".toList, author_id := "u".toList,
     content := "#a".toList, created_at := [],
     is_retweet := "False".toList, retweet_of_post_id := [] },
   { post_id := "2".toList, author_id := "u".toList,
     content := "#a #b".toList, created_at := [],
     is_retweet := "False".toList, retweet_of_post_id := [] }]

/-- The order `Counter.most_common` produces, relative to an index
function giving each key its first-seen position: strictly larger count
first, ties by smaller first-seen index. -/
def keyOrder (idx : Str → Nat) (a b : Str × Nat) : Prop :=
  b.2 < a.2 ∨ (a.2 = b.2 ∧ idx a.1 < idx b.1)

/-- C10: filtering with an absent (`None`) or empty query returns the
posts table unchanged. -/
theorem C10_filter_no_query (users : List UserRow) (posts : List PostRow) :
    filter_posts_by_query users posts none = posts ∧
    filter_posts_by_query users posts (some []) = posts :=
  ⟨rfl, rfl⟩

/-- C2: `delete_post` removes exactly the post, like and comment rows
whose post id matches, leaves the users, follows and reports tables
unchanged, and afterwards the like count and the comment list of the
deleted post are empty. -/
theorem C2_delete_post_cascade (s : State) (pid : Str) :
    (∀ r : PostRow,
      r ∈ (delete_post s pid).posts ↔ r ∈ s.posts ∧ r.post_id ≠ pid) ∧
    (∀ r : LikeRow,
      r ∈ (delete_post s pid).likes ↔ r ∈ s.likes ∧ r.post_id ≠ pid) ∧
    (∀ r : CommentRow,
      r ∈ (delete_post s pid).comments ↔ r ∈ s.comments ∧ r.post_id ≠ pid) ∧
    (delete_post s pid).users = s.users ∧
    (delete_post s pid).follows = s.follows ∧
    (delete_post s pid).reports = s.reports ∧
    like_count (delete_post s pid).likes pid = 0 ∧
    (delete_post s pid).comments.filter (fun c => decide (c.post_id = pid))
      = [] := by
  refine ⟨?_, ?_, ?_, rfl, rfl, rfl, ?_, ?_⟩
  · intro r; simp [delete_post, List.mem_filter]
  · intro r; simp [delete_post, List.mem_filter]
  · intro r; simp [delete_post, List.mem_filter]
  · rw [like_count, List.length_eq_zero, List.filter_eq_nil_iff]
    intro r hr
    simp only [delete_post, List.mem_filter, decide_eq_true_eq] at hr
    simp [hr.2]
  · rw [List.filter_eq_nil_iff]
    intro r hr
    simp only [delete_post, List.mem_filter, decide_eq_true_eq] at hr
    simp [hr.2]

/-- Witness for C2: in the state built by create-post → like → comment
on post `p1`, deleting `p1` leaves no likes and no comments for it
(and there was one like beforehand). -/
theorem C2_delete_post_cascade_witness :
    like_count (delete_post c2state "p1".toList).likes "p1".toList = 0 ∧
    (delete_post c2state "p1".toList).comments.filter
      (fun c => decide (c.post_id = "p1".toList)) = [] ∧
    like_count c2state.likes "p1".toList = 1 :=
  ⟨(C2_delete_post_cascade c2state "p1".toList).2.2.2.2.2.2.1,
   (C2_delete_post_cascade c2state "p1".toList).2.2.2.2.2.2.2,
   by decide⟩

/-- C5: registration fails exactly when the trimmed username or password
is blank or a case-insensitive duplicate username exists; a failure
leaves the table unchanged and a success appends exactly one row whose
admin flag is the string `False`; after a successful registration, any
re-registration of the same name in different casing fails. -/
theorem C5_create_user (users : List UserRow) (name pw nid now : Str) :
    ((create_user users name pw nid now).1.1 = false ↔
      trimS name = [] ∨ trimS pw = [] ∨ username_exists users name = true) ∧
    ((create_user users name pw nid now).1.1 = false →
      (create_user users name pw nid now).2 = users) ∧
    ((create_user users name pw nid now).1.1 = true →
      (create_user users name pw nid now).2 = users ++
        [{ user_id := nid, user_password := pw, username := name,
           username_lc := lowerStr name, created_at := now, bio := [],
           avatar_url := [], is_admin := "False".toList }]) ∧
    (∀ name2 pw2 nid2 now2,
      (create_user users name pw nid now).1.1 = true →
      lowerStr name2 = lowerStr name →
      (create_user (create_user users name pw nid now).2
        name2 pw2 nid2 now2).1.1 = false) := by
  by_cases h1 : (trimS name).isEmpty
  · simp [create_user, h1, List.isEmpty_iff.mp h1]
  · by_cases h2 : (trimS pw).isEmpty
    · simp [create_user, h1, h2, List.isEmpty_iff.mp h2,
        (List.isEmpty_eq_true (l := trimS name)).not.mp h1]
    · by_cases h3 : username_exists users name
      · simp [create_user, h1, h2, h3,
          (List.isEmpty_eq_true (l := trimS name)).not.mp h1,
          (List.isEmpty_eq_true (l := trimS pw)).not.mp h2]
      · have hsucc : (create_user users name pw nid now).2 = users ++
            [{ user_id := nid, user_password := pw, username := name,
               username_lc := lowerStr name, created_at := now, bio := [],
               avatar_url := [], is_admin := "False".toList }] := by
          simp [create_user, h1, h2, h3]
        refine ⟨by simp [create_user, h1, h2, h3,
            (List.isEmpty_eq_true (l := trimS name)).not.mp h1,
            (List.isEmpty_eq_true (l := trimS pw)).not.mp h2], ?_, fun _ => hsucc, ?_⟩
        · intro hf
          exfalso
          simp [create_user, h1, h2, h3] at hf
        · intro name2 pw2 nid2 now2 _ hcase
          have hex : username_exists (users ++
              [{ user_id := nid, user_password := pw, username := name,
                 username_lc := lowerStr name, created_at := now, bio := [],
                 avatar_url := [], is_admin := "False".toList }]) name2
              = true := by
            rw [username_exists]
            simp [List.filter_append, List.filter, hcase]
          rw [hsucc]
          by_cases g1 : (trimS name2).isEmpty
          · simp [create_user, g1]
          · by_cases g2 : (trimS pw2).isEmpty
            · simp [create_user, g1, g2]
            · simp only [create_user]
              rw [if_neg g1, if_neg g2, if_pos hex]

/-- Witness for C5: registering a blank username fails; after
registering `bob`, re-registering `BOB` fails. -/
theorem C5_create_user_witness :
    (create_user [] "".toList "pw".toList "n1".toList "t1".toList).1.1
      = false ∧
    (create_user (create_user [] "bob".toList "pw".toList "n1".toList
        "t1".toList).2 "BOB".toList "pw2".toList "n2".toList
        "t2".toList).1.1 = false :=
  ⟨(C5_create_user [] "".toList "pw".toList "n1".toList "t1".toList).1.mpr
      (Or.inl (by decide)),
   (C5_create_user [] "bob".toList "pw".toList "n1".toList "t1".toList).2.2.2
      "BOB".toList "pw2".toList "n2".toList "t2".toList (by decide) (by decide)⟩

/-- C3: login returns a row exactly when some user row matches the
lowercased username and the exact password; the returned row is such a
row; and after a successful registration, logging in with any casing of
the registered name and the same password succeeds. -/
theorem C3_verify_login (users : List UserRow) (username password : Str) :
    ((verify_login users username password).isSome = true ↔
      ∃ r ∈ users, r.username_lc = lowerStr username ∧
        r.user_password = password) ∧
    (∀ r, verify_login users username password = some r →
      r ∈ users ∧ r.username_lc = lowerStr username ∧
        r.user_password = password) ∧
    (∀ name pw nid now name2,
      username_exists users name = false →
      trimS name ≠ [] → trimS pw ≠ [] →
      lowerStr name2 = lowerStr name →
      (verify_login (create_user users name pw nid now).2 name2 pw).isSome
        = true) := by
  have hsome : ∀ (l : List UserRow), l.head?.isSome = true ↔ l ≠ [] := by
    intro l; cases l <;> simp
  refine ⟨?_, ?_, ?_⟩
  · rw [verify_login, hsome, ne_eq, List.filter_eq_nil_iff]
    push_neg
    simp
  · intro r hr
    have hmem : r ∈ users.filter (fun u =>
        decide (u.username_lc = lowerStr username ∧ u.user_password = password)) :=
      List.mem_of_mem_head? (by rw [verify_login] at hr; rw [hr]; simp)
    have := List.mem_filter.mp hmem
    simpa using this
  · intro name pw nid now name2 hex hn hp hcase
    have hsucc : (create_user users name pw nid now).2 = users ++
        [{ user_id := nid, user_password := pw, username := name,
           username_lc := lowerStr name, created_at := now, bio := [],
           avatar_url := [], is_admin := "False".toList }] := by
      simp [create_user, hex,
        (List.isEmpty_eq_true (l := trimS name)).not.mpr hn,
        (List.isEmpty_eq_true (l := trimS pw)).not.mpr hp]
    rw [verify_login, hsome, hsucc, List.filter_append]
    intro hnil
    have := List.append_eq_nil.mp hnil
    simp [List.filter, hcase] at this

/-- Witness for C3: after registering `alice` with password `pw`,
logging in as `Alice` with `pw` succeeds. -/
theorem C3_verify_login_witness :
    (verify_login (create_user [] "alice".toList "pw".toList "n1".toList
      "t1".toList).2 "Alice".toList "pw".toList).isSome = true :=
  (C3_verify_login [] "x".toList "y".toList).2.2 "alice".toList "pw".toList
    "n1".toList "t1".toList "Alice".toList (by decide) (by decide) (by decide)
    (by decide)

/-- C9 counterexample: the target type `Post` is not (literally) one of
`post`/`comment`, yet report creation succeeds and appends a row — the
code lowercases the target type before validating, so the claimed
failure condition does not hold as stated. -/
theorem C9_counterexample :
    (add_report [] "Post".toList "t1".toList "u1".toList "spam".toList
      "r1".toList "ts".toList).1.1 = true ∧
    (add_report [] "Post".toList "t1".toList "u1".toList "spam".toList
      "r1".toList "ts".toList).2 ≠ [] ∧
    ¬("Post".toList = "post".toList ∨ "Post".toList = "comment".toList) ∧
    trimS "spam".toList ≠ [] := by
  refine ⟨?_, ?_, by decide, by decide⟩ <;> decide

/-- C9 (amended): report creation fails exactly when the lowercased
target type is not one of `post`/`comment` or the reason is blank after
trimming; a failure leaves the reports table unchanged and a success
appends exactly one row with resolved `False`. -/
theorem C9_add_report (reports : List ReportRow)
    (tt tid rid reason nid now : Str) :
    ((add_report reports tt tid rid reason nid now).1.1 = false ↔
      (lowerStr tt ≠ "post".toList ∧ lowerStr tt ≠ "comment".toList) ∨
        trimS reason = []) ∧
    ((add_report reports tt tid rid reason nid now).1.1 = false →
      (add_report reports tt tid rid reason nid now).2 = reports) ∧
    ((add_report reports tt tid rid reason nid now).1.1 = true →
      (add_report reports tt tid rid reason nid now).2 = reports ++
        [{ report_id := nid, target_type := lowerStr tt, target_id := tid,
           reporter_id := rid, reason := trimS reason, created_at := now,
           resolved := "False".toList }]) := by
  by_cases h1 : lowerStr tt = "post".toList ∨ lowerStr tt = "comment".toList
  · by_cases h2 : trimS reason = []
    · have heq : add_report reports tt tid rid reason nid now =
          ((false, "신고 사유를 입력해주세요.".toList), reports) := by
        simp only [add_report]
        rw [if_pos h1, if_pos (List.isEmpty_iff.mpr h2)]
      rw [heq]
      exact ⟨iff_of_true rfl (Or.inr h2), fun _ => rfl, fun hs => by simp at hs⟩
    · have heq : add_report reports tt tid rid reason nid now =
          ((true, "신고가 접수되었습니다.".toList), reports ++
            [{ report_id := nid, target_type := lowerStr tt, target_id := tid,
               reporter_id := rid, reason := trimS reason, created_at := now,
               resolved := "False".toList }]) := by
        simp only [add_report]
        rw [if_pos h1, if_neg (by simpa [List.isEmpty_iff] using h2)]
      rw [heq]
      refine ⟨iff_of_false (by simp) ?_, fun hf => by simp at hf, fun _ => rfl⟩
      rintro (⟨hp, hc⟩ | hb)
      · rcases h1 with h | h
        · exact hp h
        · exact hc h
      · exact h2 hb
  · have heq : add_report reports tt tid rid reason nid now =
        ((false, "잘못된 대상 유형입니다.".toList), reports) := by
      simp only [add_report]
      rw [if_neg h1]
    push_neg at h1
    rw [heq]
    exact ⟨iff_of_true rfl (Or.inl ⟨h1.1, h1.2⟩), fun _ => rfl,
      fun hs => by simp at hs⟩

/-- Witness for C9 (amended): an invalid target type fails; a valid
report on target type `post` appends one unresolved row. -/
theorem C9_add_report_witness :
    (add_report [] "user".toList "t1".toList "u1".toList "spam".toList
      "r1".toList "ts".toList).1.1 = false ∧
    (add_report [] "post".toList "t1".toList "u1".toList " spam ".toList
      "r1".toList "ts".toList).2 =
      [{ report_id := "r1".toList, target_type := lowerStr "post".toList,
         target_id := "t1".toList, reporter_id := "u1".toList,
         reason := trimS " spam ".toList, created_at := "ts".toList,
         resolved := "False".toList }] :=
  ⟨(C9_add_report [] "user".toList "t1".toList "u1".toList "spam".toList
      "r1".toList "ts".toList).1.mpr (Or.inl (by decide)),
   (C9_add_report [] "post".toList "t1".toList "u1".toList " spam ".toList
      "r1".toList "ts".toList).2.2 (by decide)⟩

/-- C6: post creation trims the content; a non-retweet post of trimmed
length exactly 280 is accepted and stored with retweet flag `False`;
trimmed length 281 is rejected; blank trimmed content is rejected
without a retweet source and accepted with one, stored with retweet
flag `True` and the source id. -/
theorem C6_add_post (posts : List PostRow) (a content : Str)
    (rid : Option Str) (nid now : Str) :
    ((trimS content).length = 280 → truthyOpt rid = false →
      (add_post posts a content rid nid now).1.1 = true ∧
      (add_post posts a content rid nid now).2 = posts ++
        [{ post_id := nid, author_id := a, content := trimS content,
           created_at := now, is_retweet := "False".toList,
           retweet_of_post_id := optOrEmpty rid }]) ∧
    ((trimS content).length = 281 →
      (add_post posts a content rid nid now).1.1 = false ∧
      (add_post posts a content rid nid now).2 = posts) ∧
    (trimS content = [] → truthyOpt rid = false →
      (add_post posts a content rid nid now).1.1 = false ∧
      (add_post posts a content rid nid now).2 = posts) ∧
    (∀ r, trimS content = [] → rid = some r → r ≠ [] →
      (add_post posts a content rid nid now).1.1 = true ∧
      (add_post posts a content rid nid now).2 = posts ++
        [{ post_id := nid, author_id := a, content := [],
           created_at := now, is_retweet := "True".toList,
           retweet_of_post_id := r }]) := by
  refine ⟨?_, ?_, ?_, ?_⟩
  · intro hlen hrid
    have hne : (trimS content).isEmpty = false := by
      cases h : trimS content with
      | nil => rw [h] at hlen; simp at hlen
      | cons x xs => rfl
    constructor <;> simp [add_post, hne, hrid, hlen]
  · intro hlen
    have hne : (trimS content).isEmpty = false := by
      cases h : trimS content with
      | nil => rw [h] at hlen; simp at hlen
      | cons x xs => rfl
    constructor <;> simp [add_post, hne, hlen]
  · intro hblank hrid
    constructor <;> simp [add_post, hblank, hrid]
  · intro r hblank hrid hr
    have htr : truthyOpt (some r) = true := by
      cases r with
      | nil => exact absurd rfl hr
      | cons x xs => rfl
    constructor <;>
      simp [add_post, hblank, hrid, htr, optOrEmpty]

set_option maxRecDepth 8192 in
/-- Witness for C6: a 280-character post is accepted, a 281-character
post is rejected, and a blank retweet of post `p1` is accepted. -/
theorem C6_add_post_witness :
    (add_post [] "u1".toList (List.replicate 280 'a') none "n1".toList
      "t1".toList).1.1 = true ∧
    (add_post [] "u1".toList (List.replicate 281 'a') none "n1".toList
      "t1".toList).1.1 = false ∧
    (add_post [] "u1".toList [] (some "p1".toList) "n1".toList
      "t1".toList).1.1 = true :=
  ⟨((C6_add_post [] "u1".toList (List.replicate 280 'a') none "n1".toList
      "t1".toList).1 (by decide) (by decide)).1,
   ((C6_add_post [] "u1".toList (List.replicate 281 'a') none "n1".toList
      "t1".toList).2.1 (by decide)).1,
   ((C6_add_post [] "u1".toList [] (some "p1".toList) "n1".toList
      "t1".toList).2.2.2 "p1".toList (by decide) rfl (by decide)).1⟩

/-- C1 counterexample: user `u1` has already retweeted post `p1`
(and `already_retweeted` reports so), yet a second retweet attempt
through the domain operation `add_post` returns success and appends a
new post row — `add_post` performs no retweet-guard check. -/
theorem C1_counterexample :
    already_retweeted c1posts "p1".toList "u1".toList = true ∧
    (add_post c1posts "u1".toList [] (some "p1".toList) "r2".toList
      "t2".toList).1.1 = true ∧
    (add_post c1posts "u1".toList [] (some "p1".toList) "r2".toList
      "t2".toList).2.length = 2 := by
  refine ⟨by decide, by decide, by decide⟩

/-- C1 (amended): `already_retweeted` returns true exactly when a
retweet row of the target post by the user exists — the check the UI
uses to disable the retweet button — but the domain operation `add_post`
itself does not enforce the guard: a retweet attempt with empty content
and a non-empty source post id always succeeds and appends a row. -/
theorem C1_retweet_guard (posts : List PostRow) (target uid : Str) :
    (already_retweeted posts target uid = true ↔
      ∃ r ∈ posts, r.author_id = uid ∧ r.is_retweet = "True".toList ∧
        r.retweet_of_post_id = target) ∧
    (∀ nid now, target ≠ [] →
      (add_post posts uid [] (some target) nid now).1.1 = true ∧
      (add_post posts uid [] (some target) nid now).2 = posts ++
        [{ post_id := nid, author_id := uid, content := [],
           created_at := now, is_retweet := "True".toList,
           retweet_of_post_id := target }]) := by
  constructor
  · have hmatch : already_retweeted posts target uid
        = decide (0 < (posts.filter (fun r =>
            decide (r.author_id = uid ∧ r.is_retweet = "True".toList ∧
              r.retweet_of_post_id = target))).length) := by
      cases posts with
      | nil => rfl
      | cons p ps => rfl
    rw [hmatch, decide_eq_true_iff, List.length_pos, ne_eq,
      List.filter_eq_nil_iff]
    push_neg
    simp
  · intro nid now htarget
    have htr : truthyOpt (some target) = true := by
      cases target with
      | nil => exact absurd rfl htarget
      | cons x xs => rfl
    constructor <;> simp [add_post, trimS, htr, optOrEmpty]

/-- Witness for C1 (amended): instantiated at the one-retweet table
`c1posts`. -/
theorem C1_retweet_guard_witness :
    already_retweeted c1posts "p1".toList "u1".toList = true ∧
    (add_post c1posts "u1".toList [] (some "p1".toList) "r3".toList
      "t3".toList).1.1 = true :=
  ⟨(C1_retweet_guard c1posts "p1".toList "u1".toList).1.mpr (by decide),
   ((C1_retweet_guard c1posts "p1".toList "u1".toList).2 "r3".toList
      "t3".toList (by decide)).1⟩

/-- Splitting a filtered length along a second predicate. -/
theorem length_filter_split {a : Type} (l : List a) (p q : a → Bool) :
    (l.filter p).length
      = (l.filter (fun x => p x && q x)).length
        + (l.filter (fun x => p x && !q x)).length := by
  induction l with
  | nil => rfl
  | cons x xs ih =>
    by_cases hp : p x = true
    · by_cases hq : q x = true <;>
        simp [List.filter_cons, hp, hq, ih] <;> omega
    · have hp' : p x = false := Bool.eq_false_iff.mpr hp
      simp [List.filter_cons, hp', ih]

/-- C4 counterexample: on a likes table holding two like rows for the
same (post, user) pair — a table violating the documented
at-most-one-per-pair invariant — toggling twice does not return the
like count to its original value (it drops from 2 to 1). -/
theorem C4_counterexample :
    ¬ (like_count (toggle_like (toggle_like c4likes "p1".toList "u1".toList
        "t3".toList) "p1".toList "u1".toList "t4".toList) "p1".toList
      = like_count c4likes "p1".toList) := by
  decide

/-- C4 (amended): on a likes table in which the (post, user) pair occurs
at most once — the invariant `toggle_like` itself maintains — toggling
twice returns the like count of the post to its original value; on any
table, toggling with no like row present for the pair increases the like
count by exactly one, and toggling with one present removes every like
row of the pair. -/
theorem C4_toggle_like (likes : List LikeRow) (pid uid t1 t2 : Str) :
    ((likes.filter (likeMatches pid uid)).length ≤ 1 →
      like_count (toggle_like (toggle_like likes pid uid t1) pid uid t2) pid
        = like_count likes pid) ∧
    (likes.any (likeMatches pid uid) = false →
      like_count (toggle_like likes pid uid t1) pid
        = like_count likes pid + 1) ∧
    (likes.any (likeMatches pid uid) = true →
      (toggle_like likes pid uid t1).filter (likeMatches pid uid) = []) := by
  have himp : ∀ r : LikeRow, likeMatches pid uid r = true →
      decide (r.post_id = pid) = true := by
    intro r hr
    simp only [likeMatches, decide_eq_true_iff] at hr
    simp [hr.1]
  have hcongrA : likes.filter
        (fun x => decide (x.post_id = pid) && likeMatches pid uid x)
      = likes.filter (likeMatches pid uid) := by
    refine List.filter_congr ?_
    intro x _
    cases h : likeMatches pid uid x
    · simp [h]
    · simp [h, himp x h]
  have hsplit : (likes.filter (fun r => decide (r.post_id = pid))).length
      = (likes.filter
          (fun x => decide (x.post_id = pid) && likeMatches pid uid x)).length
        + (likes.filter
            (fun x => decide (x.post_id = pid) && !likeMatches pid uid x)).length :=
    length_filter_split likes _ _
  have hcongrB : likes.filter
        (fun x => decide (x.post_id = pid) && !likeMatches pid uid x)
      = (likes.filter (fun r => !likeMatches pid uid r)).filter
          (fun r => decide (r.post_id = pid)) := by
    rw [List.filter_filter]
  refine ⟨?_, ?_, ?_⟩
  · intro hle
    by_cases hany : likes.any (likeMatches pid uid) = true
    · have t1def : toggle_like likes pid uid t1
          = likes.filter (fun r => !likeMatches pid uid r) := by
        rw [toggle_like, if_pos hany]
      have h2any : (likes.filter (fun r => !likeMatches pid uid r)).any
          (likeMatches pid uid) = false := by
        rw [List.any_eq_false]
        intro x hx
        have hh := (List.mem_filter.mp hx).2
        rw [Bool.not_eq_true'] at hh
        simp [hh]
      have t2def : toggle_like
            (likes.filter (fun r => !likeMatches pid uid r)) pid uid t2
          = likes.filter (fun r => !likeMatches pid uid r) ++
            [{ post_id := pid, user_id := uid, created_at := t2 }] := by
        rw [toggle_like, if_neg (by rw [h2any]; exact Bool.false_ne_true)]
      have hone : (likes.filter (likeMatches pid uid)).length = 1 := by
        rcases List.any_eq_true.mp hany with ⟨x, hx, hpx⟩
        have hmem : x ∈ likes.filter (likeMatches pid uid) :=
          List.mem_filter.mpr ⟨hx, hpx⟩
        have := List.length_pos.mpr (List.ne_nil_of_mem hmem)
        omega
      have hsing : (List.filter (fun r => decide (r.post_id = pid))
          [({ post_id := pid, user_id := uid, created_at := t2 } : LikeRow)]).length
          = 1 := by simp
      have e1 : (likes.filter
          (fun x => decide (x.post_id = pid) && likeMatches pid uid x)).length
          = 1 := by rw [hcongrA]; exact hone
      rw [t1def, t2def, like_count, like_count, List.filter_append,
        List.length_append, hsing, ← hcongrB]
      omega
    · have hany' : likes.any (likeMatches pid uid) = false :=
        Bool.eq_false_iff.mpr hany
      have t1def : toggle_like likes pid uid t1 = likes ++
          [{ post_id := pid, user_id := uid, created_at := t1 }] := by
        rw [toggle_like, if_neg (by rw [hany']; exact Bool.false_ne_true)]
      have hnew1 : likeMatches pid uid
          { post_id := pid, user_id := uid, created_at := t1 } = true := by
        simp [likeMatches]
      have h2any : (likes ++
          [({ post_id := pid, user_id := uid, created_at := t1 } : LikeRow)]).any
          (likeMatches pid uid) = true := by
        rw [List.any_eq_true]
        exact ⟨_, List.mem_append_right _ (List.mem_singleton.mpr rfl), hnew1⟩
      have t2def : toggle_like (likes ++
            [({ post_id := pid, user_id := uid, created_at := t1 } : LikeRow)])
            pid uid t2
          = (likes ++
            [({ post_id := pid, user_id := uid, created_at := t1 } : LikeRow)]).filter
              (fun r => !likeMatches pid uid r) := by
        rw [toggle_like, if_pos h2any]
      have hfself : likes.filter (fun r => !likeMatches pid uid r) = likes :=
        List.filter_eq_self.mpr (fun a ha => by
          simp [Bool.eq_false_iff.mpr (List.any_eq_false.mp hany' a ha)])
      have hsing : List.filter (fun r => !likeMatches pid uid r)
          [({ post_id := pid, user_id := uid, created_at := t1 } : LikeRow)]
          = [] := by simp [likeMatches]
      rw [t1def, t2def, List.filter_append, hfself, hsing, List.append_nil]
  · intro hany
    have t1def : toggle_like likes pid uid t1 = likes ++
        [{ post_id := pid, user_id := uid, created_at := t1 }] := by
      rw [toggle_like, if_neg (by rw [hany]; exact Bool.false_ne_true)]
    have hsing : (List.filter (fun r => decide (r.post_id = pid))
        [({ post_id := pid, user_id := uid, created_at := t1 } : LikeRow)]).length
        = 1 := by simp
    rw [t1def, like_count, like_count, List.filter_append,
      List.length_append, hsing]
  · intro hany
    rw [toggle_like, if_pos hany, List.filter_filter]
    have hfalse : ∀ x ∈ likes,
        (likeMatches pid uid x && !likeMatches pid uid x) = false :=
      fun x _ => Bool.and_not_self _
    rw [List.filter_congr hfalse, List.filter_false]

/-- Witness for C4 (amended): on the empty likes table (which satisfies
the at-most-one invariant), a double toggle restores the count and a
single toggle adds one. -/
theorem C4_toggle_like_witness :
    like_count (toggle_like (toggle_like [] "p1".toList "u1".toList
        "t1".toList) "p1".toList "u1".toList "t2".toList) "p1".toList
      = like_count [] "p1".toList ∧
    like_count (toggle_like [] "p1".toList "u1".toList "t1".toList)
        "p1".toList = like_count [] "p1".toList + 1 :=
  ⟨(C4_toggle_like [] "p1".toList "u1".toList "t1".toList "t2".toList).1
      (by decide),
   (C4_toggle_like [] "p1".toList "u1".toList "t1".toList "t2".toList).2.1
      (by decide)⟩

/-- Matching a head segment is existence of a tail completion. -/
theorem isLead_iff (needle hay : Str) :
    isLead needle hay = true ↔ ∃ r, hay = needle ++ r := by
  induction needle generalizing hay with
  | nil => simp [isLead]
  | cons a as ih =>
    cases hay with
    | nil => simp [isLead]
    | cons b bs =>
      rw [isLead]
      simp only [Bool.and_eq_true, decide_eq_true_iff]
      constructor
      · rintro ⟨hab, hlead⟩
        rcases (ih bs).mp hlead with ⟨r, hr⟩
        subst hab
        exact ⟨r, by rw [hr]; rfl⟩
      · rintro ⟨r, hr⟩
        injection hr with h1 h2
        exact ⟨h1.symm, (ih bs).mpr ⟨r, h2⟩⟩

/-- The substring test is existence of a decomposition. -/
theorem strContains_iff (hay needle : Str) :
    strContains hay needle = true ↔ ∃ l r, hay = l ++ needle ++ r := by
  induction hay with
  | nil =>
    rw [strContains]
    simp only [List.isEmpty_iff]
    constructor
    · intro h
      exact ⟨[], [], by simp [h]⟩
    · rintro ⟨l, r, h⟩
      rcases List.append_eq_nil.mp h.symm with ⟨hln, _⟩
      rcases List.append_eq_nil.mp hln with ⟨_, hn⟩
      exact hn
  | cons h t ih =>
    rw [strContains, Bool.or_eq_true, isLead_iff, ih]
    constructor
    · rintro (⟨r, hr⟩ | ⟨l, r, hr⟩)
      · exact ⟨[], r, by simp [hr]⟩
      · exact ⟨h :: l, r, by simp [hr]⟩
    · rintro ⟨l, r, hr⟩
      cases l with
      | nil => exact Or.inl ⟨r, by simpa using hr⟩
      | cons x xs =>
        rw [List.cons_append, List.cons_append] at hr
        injection hr with h1 h2
        exact Or.inr ⟨xs, r, h2⟩

/-- C7: the plain-text search branch is a code bug.  The function's own
docstring (src/app.py:371) and the spec promise case-insensitive
substring search, but pandas `str.contains` defaults to regex matching:
the query `a.c` returns the post with content `abc`, although `a.c` is
not a substring of `abc`. -/
theorem C7_regex_search_bug :
    c7post ∈ filter_posts_by_query [] [c7post] (some "a.c".toList) ∧
    strContains (lowerStr c7post.content) (lowerStr "a.c".toList) = false ∧
    ¬ ∃ l r, lowerStr c7post.content = l ++ lowerStr "a.c".toList ++ r := by
  refine ⟨by decide, by decide, ?_⟩
  intro h
  exact absurd ((strContains_iff _ _).mpr h) (by decide)

theorem keyOrder_snd_le {idx : Str → Nat} {a b : Str × Nat}
    (h : keyOrder idx a b) : b.2 ≤ a.2 := by
  rcases h with h | ⟨h, _⟩ <;> omega

theorem idxOfS_cons_self (a : Str) (l : List Str) : idxOfS a (a :: l) = 0 := by
  rw [idxOfS]
  simp

theorem idxOfS_cons_ne (a b : Str) (l : List Str) (h : b ≠ a) :
    idxOfS a (b :: l) = idxOfS a l + 1 := by
  rw [idxOfS]
  simp [h]

theorem mem_firstOccs {s : Str} : ∀ {ts : List Str},
    s ∈ firstOccs ts ↔ s ∈ ts := by
  intro ts
  induction ts with
  | nil => simp [firstOccs]
  | cons t rest ih =>
    rw [firstOccs]
    constructor
    · intro h
      rcases List.mem_cons.mp h with h | h
      · subst h; exact List.mem_cons_self _ _
      · exact List.mem_cons_of_mem _ (ih.mp (List.mem_filter.mp h).1)
    · intro h
      rcases List.mem_cons.mp h with h | h
      · subst h; exact List.mem_cons_self _ _
      · by_cases hst : s = t
        · subst hst; exact List.mem_cons_self _ _
        · exact List.mem_cons_of_mem _
            (List.mem_filter.mpr ⟨ih.mpr h, by simp [hst]⟩)

theorem firstOccs_pairwise (ts : List Str) :
    (firstOccs ts).Pairwise (fun a b => idxOfS a ts < idxOfS b ts) := by
  induction ts with
  | nil => simp [firstOccs]
  | cons t rest ih =>
    rw [firstOccs]
    refine List.Pairwise.cons ?_ ?_
    · intro b hb
      rcases List.mem_filter.mp hb with ⟨_, hbne⟩
      rw [decide_eq_true_iff] at hbne
      rw [idxOfS_cons_self, idxOfS_cons_ne _ _ _ (Ne.symm hbne)]
      omega
    · have hsub : ((firstOccs rest).filter
          (fun s => decide (s ≠ t))).Sublist (firstOccs rest) :=
        List.filter_sublist _
      refine List.Pairwise.imp_of_mem ?_ (List.Pairwise.sublist hsub ih)
      intro a b ha hb hab
      have hat : a ≠ t := by
        simpa using (List.mem_filter.mp ha).2
      have hbt : b ≠ t := by
        simpa using (List.mem_filter.mp hb).2
      rw [idxOfS_cons_ne _ _ _ (Ne.symm hat), idxOfS_cons_ne _ _ _ (Ne.symm hbt)]
      omega

theorem counterList_pairwise (ts : List Str) :
    (counterList ts).Pairwise (fun a b => idxOfS a.1 ts < idxOfS b.1 ts) := by
  rw [counterList, List.pairwise_map]
  exact firstOccs_pairwise ts

theorem counterList_mem {p : Str × Nat} {ts : List Str}
    (h : p ∈ counterList ts) : p.1 ∈ ts ∧ p.2 = countS p.1 ts := by
  rw [counterList] at h
  rcases List.mem_map.mp h with ⟨t, ht, rfl⟩
  exact ⟨mem_firstOccs.mp ht, rfl⟩

theorem mem_insDesc {x y : Str × Nat} : ∀ {l : List (Str × Nat)},
    y ∈ insDesc x l ↔ y = x ∨ y ∈ l := by
  intro l
  induction l with
  | nil => simp [insDesc]
  | cons z zs ih =>
    rw [insDesc]
    by_cases h : x.2 ≤ z.2
    · rw [if_pos h, List.mem_cons, ih, List.mem_cons]
      tauto
    · rw [if_neg h, List.mem_cons, List.mem_cons]

theorem insDesc_pairwise (idx : Str → Nat) (x : Str × Nat) :
    ∀ (acc : List (Str × Nat)), acc.Pairwise (keyOrder idx) →
    (∀ y ∈ acc, idx y.1 < idx x.1) →
    (insDesc x acc).Pairwise (keyOrder idx) := by
  intro acc
  induction acc with
  | nil =>
    intro _ _
    exact List.pairwise_singleton _ _
  | cons y ys ih =>
    intro hacc hlt
    rw [insDesc]
    rcases List.pairwise_cons.mp hacc with ⟨hyall, hys⟩
    by_cases h : x.2 ≤ y.2
    · rw [if_pos h]
      refine List.Pairwise.cons ?_
        (ih hys (fun z hz => hlt z (List.mem_cons_of_mem _ hz)))
      intro z hz
      rcases mem_insDesc.mp hz with rfl | hz'
      · rcases Nat.lt_or_ge z.2 y.2 with hlt2 | hge
        · exact Or.inl hlt2
        · exact Or.inr ⟨Nat.le_antisymm hge h,
            hlt y (List.mem_cons_self _ _)⟩
      · exact hyall z hz'
    · rw [if_neg h]
      have hxy : y.2 < x.2 := Nat.lt_of_not_le h
      refine List.Pairwise.cons ?_ hacc
      intro z hz
      rcases List.mem_cons.mp hz with rfl | hz'
      · exact Or.inl hxy
      · have := keyOrder_snd_le (hyall z hz')
        exact Or.inl (by omega)

theorem foldl_insDesc_pairwise (idx : Str → Nat) :
    ∀ (c acc : List (Str × Nat)), acc.Pairwise (keyOrder idx) →
    (∀ y ∈ acc, ∀ x ∈ c, idx y.1 < idx x.1) →
    c.Pairwise (fun a b => idx a.1 < idx b.1) →
    (c.foldl (fun acc x => insDesc x acc) acc).Pairwise (keyOrder idx) := by
  intro c
  induction c with
  | nil =>
    intro acc h _ _
    simpa using h
  | cons x rest ih =>
    intro acc hacc hcross hc
    rw [List.foldl_cons]
    rcases List.pairwise_cons.mp hc with ⟨hxall, hrest⟩
    refine ih (insDesc x acc) ?_ ?_ hrest
    · exact insDesc_pairwise idx x acc hacc
        (fun y hy => hcross y hy x (List.mem_cons_self _ _))
    · intro y hy x' hx'
      rcases mem_insDesc.mp hy with rfl | hy'
      · exact hxall x' hx'
      · exact hcross y hy' x' (List.mem_cons_of_mem _ hx')

theorem sortDesc_pairwise (idx : Str → Nat) (c : List (Str × Nat))
    (hc : c.Pairwise (fun a b => idx a.1 < idx b.1)) :
    (sortDesc c).Pairwise (keyOrder idx) :=
  foldl_insDesc_pairwise idx c [] List.Pairwise.nil (by simp) hc

theorem insDesc_perm (x : Str × Nat) :
    ∀ (l : List (Str × Nat)), (insDesc x l).Perm (x :: l) := by
  intro l
  induction l with
  | nil => rw [insDesc]
  | cons y ys ih =>
    rw [insDesc]
    by_cases h : x.2 ≤ y.2
    · rw [if_pos h]
      exact (ih.cons y).trans (List.Perm.swap x y ys)
    · rw [if_neg h]

theorem sortDesc_perm (c : List (Str × Nat)) : (sortDesc c).Perm c := by
  suffices h : ∀ (c acc : List (Str × Nat)),
      (c.foldl (fun acc x => insDesc x acc) acc).Perm (c ++ acc) by
    simpa using h c []
  intro c
  induction c with
  | nil =>
    intro acc
    simp only [List.foldl_nil, List.nil_append]
    exact List.Perm.refl acc
  | cons x rest ih =>
    intro acc
    rw [List.foldl_cons]
    have h2 : (rest ++ insDesc x acc).Perm (rest ++ (x :: acc)) :=
      List.Perm.append_left rest (insDesc_perm x acc)
    exact (ih (insDesc x acc)).trans (h2.trans List.perm_middle)

/-- The full specification of `Counter(ts).most_common(k)`: length, key
membership, counts, distinct keys, descending order with first-seen tie
break, and the top-k property. -/
theorem mostCommon_spec (ts : List Str) (k : Nat) :
    (mostCommon ts k).length = min k (counterList ts).length ∧
    (∀ p ∈ mostCommon ts k, p.1 ∈ ts ∧ p.2 = countS p.1 ts) ∧
    ((mostCommon ts k).map Prod.fst).Nodup ∧
    (mostCommon ts k).Pairwise (keyOrder (fun s => idxOfS s ts)) ∧
    (∀ t ∈ ts, t ∉ (mostCommon ts k).map Prod.fst →
      ∀ p ∈ mostCommon ts k, countS t ts ≤ p.2) := by
  have hperm : (sortDesc (counterList ts)).Perm (counterList ts) :=
    sortDesc_perm _
  have hpw : (sortDesc (counterList ts)).Pairwise
      (keyOrder (fun s => idxOfS s ts)) :=
    sortDesc_pairwise _ _ (counterList_pairwise ts)
  have hsub : (mostCommon ts k).Sublist (sortDesc (counterList ts)) :=
    List.take_sublist _ _
  have hmemc : ∀ p ∈ mostCommon ts k, p ∈ counterList ts := by
    intro p hp
    exact hperm.mem_iff.mp (hsub.subset hp)
  have hpwS : (mostCommon ts k).Pairwise (keyOrder (fun s => idxOfS s ts)) :=
    List.Pairwise.sublist hsub hpw
  refine ⟨?_, ?_, ?_, hpwS, ?_⟩
  · rw [mostCommon, List.length_take, hperm.length_eq]
  · intro p hp
    exact counterList_mem (hmemc p hp)
  · have hne : (mostCommon ts k).Pairwise (fun a b => a.1 ≠ b.1) := by
      refine List.Pairwise.imp_of_mem ?_ hpwS
      intro a b ha hb hord hfst
      have hca := (counterList_mem (hmemc a ha)).2
      have hcb := (counterList_mem (hmemc b hb)).2
      rw [← hfst] at hcb
      rcases hord with h | ⟨h2, hidx⟩
      · omega
      · rw [hfst] at hidx
        omega
    exact List.pairwise_map.mpr hne
  · intro t ht hnotin p hp
    have htc : (t, countS t ts) ∈ counterList ts :=
      List.mem_map.mpr ⟨t, mem_firstOccs.mpr ht, rfl⟩
    have htsd : (t, countS t ts) ∈ sortDesc (counterList ts) :=
      hperm.mem_iff.mpr htc
    rw [← List.take_append_drop k (sortDesc (counterList ts))] at htsd
    rcases List.mem_append.mp htsd with h | h
    · exact absurd (List.mem_map.mpr ⟨_, h, rfl⟩) hnotin
    · have hpw2 : (sortDesc (counterList ts)).Pairwise (fun a b => b.2 ≤ a.2) :=
        hpw.imp keyOrder_snd_le
      rw [← List.take_append_drop k (sortDesc (counterList ts))] at hpw2
      exact (List.pairwise_append.mp hpw2).2.2 p hp _ h

/-- C8: `trending_hashtags` returns `min k (number of distinct tags)`
pairs; each pair is a tag of some post with its exact occurrence count;
tags are distinct; pairs are in descending count order with ties broken
by first-seen position in the tag stream; every tag left out has a count
no larger than any returned one; and on posts carrying `#a, #a, #b` the
top-2 list is `[("a", 2), ("b", 1)]`. -/
theorem C8_trending :
    (∀ (posts : List PostRow) (k : Nat),
      (trending_hashtags posts k).length
          = min k (counterList (allTags posts)).length ∧
      (∀ p ∈ trending_hashtags posts k,
        p.1 ∈ allTags posts ∧ p.2 = countS p.1 (allTags posts)) ∧
      ((trending_hashtags posts k).map Prod.fst).Nodup ∧
      (trending_hashtags posts k).Pairwise
        (keyOrder (fun s => idxOfS s (allTags posts))) ∧
      (∀ t ∈ allTags posts, t ∉ (trending_hashtags posts k).map Prod.fst →
        ∀ p ∈ trending_hashtags posts k, countS t (allTags posts) ≤ p.2)) ∧
    trending_hashtags c8posts 2 = [("a".toList, 2), ("b".toList, 1)] := by
  constructor
  · intro posts k
    exact mostCommon_spec (allTags posts) k
  · decide

/-- Witness for C8: the pair `("a", 2)` returned for the `#a, #a, #b`
posts is a tag of the stream with its exact occurrence count. -/
theorem C8_trending_witness :
    ("a".toList, (2 : Nat)).1 ∈ allTags c8posts ∧
    ("a".toList, (2 : Nat)).2 = countS ("a".toList, (2 : Nat)).1
      (allTags c8posts) :=
  (C8_trending.1 c8posts 2).2.1 ("a".toList, 2) (by decide)


end SocialFeed
